import Mathlib

/-!
# Verification of the session-desktop outbound dispatch layer

Shallow embedding of `src/ts/session/sending/MessageQueue.ts` and
`src/ts/opengroup/utils/OpenGroupUtils.ts`, with theorems settling the
frozen claims about the dispatch engine and the open-group id utilities.

JavaScript objects are modelled with an explicit identity (`objId`): two
`new PubKey(...)` allocations are distinct objects even when they wrap the
same key string.  JavaScript `Map` keys, lodash `SameValueZero` comparisons
and `Array.prototype.includes` all compare objects by identity, which in
this embedding is equality of the full `PubKey` structure (distinct
allocations always receive distinct `objId`s, which the allocation
functions below enforce).
-/

namespace MessageQueueModel

/-- Model of the `PubKey` class (`ts/session/types`, constructed with
`new PubKey(key)` at every use site in `MessageQueue.ts`).  `objId` is the
JavaScript object identity of the allocation; `key` the wrapped device key
string.  Structure equality models JavaScript `SameValueZero`/`Map`-key
equality (object identity); equality of the `key` fields models the
value equality of the underlying key material. -/
structure PubKey where
  objId : Nat
  key : String
deriving DecidableEq

/-- Message kinds distinguished by `instanceof` checks in `MessageQueue.ts`
(`ContentMessage`, `ClosedGroupMessage`, `OpenGroupMessage`,
`SyncMessage`, `SessionResetMessage`). -/
inductive MsgKind where
  | content
  | closedGroup
  | openGroup
  | syncWrapper
  | sessionReset
deriving DecidableEq

/-- Model of an outgoing message.  The message classes live outside the
excerpted sources, so the two sync predicates are modelled from the spec:
`canSyncFlag` is the result of `message.canSync(message)` on a non-wrapper
message (the base syncability flag), and `wrapperCanSync` is the result of
`canSync()` on the `SyncMessage` wrapper built from this message (the
spec's wrapper veto: a message may claim syncability while its wrapper
reports "not syncable"). -/
structure OutMessage where
  identifier : String
  kind : MsgKind
  canSyncFlag : Bool
  wrapperCanSync : Bool
deriving DecidableEq

/-- Model of `SyncMessage.from(message)`: wraps a message into a sync
wrapper.  Modelled from the spec (the class is outside the excerpt): the
wrapper keeps the identifier and the wrapper-veto bit of the wrapped
message. -/
def syncMessageFrom (m : OutMessage) : OutMessage :=
  { m with kind := MsgKind.syncWrapper }

/-- Model of the `canSync` method: on a sync wrapper it reports the
wrapper's own syncability (the wrapper veto); on any other message it
reports the base flag.  Modelled from the spec. -/
def canSyncOf (m : OutMessage) : Bool :=
  match m.kind with
  | MsgKind.syncWrapper => m.wrapperCanSync
  | _ => m.canSyncFlag

/-- External collaborators of `MessageQueue` (directory, session protocol,
conversation metadata), as in spec section 6.  `hasSession` and
`isMediumGroup` are keyed by the device key string (the code passes
`device` resp. `device.key` to the collaborator). -/
structure Env where
  ourNumber : String
  pairedDevices : String → List String
  hasSession : String → Bool
  isMediumGroup : String → Bool

/-- Models `list.map(d => new PubKey(d))`: each element is a fresh
allocation, so object identities are distinct and start at `base`. -/
def allocDevices (base : Nat) : List String → List PubKey
  | [] => []
  | k :: ks => ⟨base, k⟩ :: allocDevices (base + 1) ks

/-- Model of `getOurDevices` (`MessageQueue.ts` lines 168-173): resolves
the user's paired devices and wraps each key in a fresh `PubKey`. -/
def getOurDevices (env : Env) (base : Nat) : List PubKey :=
  allocDevices base (env.pairedDevices env.ourNumber)

/-- First-occurrence deduplication under JavaScript `SameValueZero`
(object identity): models lodash `baseUniq`.  `seen` is the accumulator of
already emitted values. -/
def jsUniqAux (seen : List PubKey) : List PubKey → List PubKey
  | [] => []
  | x :: xs =>
    if x ∈ seen then jsUniqAux seen xs else x :: jsUniqAux (x :: seen) xs

/-- lodash `_.uniq` under `SameValueZero` (object identity). -/
def jsUniq (l : List PubKey) : List PubKey := jsUniqAux [] l

/-- lodash `_.xor(a, b)` for two arrays: unique values present in exactly
one of the arrays, compared with `SameValueZero` — i.e. object identity,
NOT key-material value equality.  lodash computes
`uniq(difference(a, b) ++ difference(b, a))`. -/
def lodashXor (a b : List PubKey) : List PubKey :=
  jsUniq (a.filter (fun x => decide (x ∉ b)) ++ b.filter (fun x => decide (x ∉ a)))

/-- lodash `_.xor(a, b)` when `b` may be `undefined` (the result of an
`async` function that executed a bare `return`).  lodash ignores non-array
arguments, so `_.xor(a, undefined)` is `uniq(a)`. -/
def lodashXorOpt (a : List PubKey) : Option (List PubKey) → List PubKey
  | some b => lodashXor a b
  | none => jsUniq a

/-- Result of `sendSyncMessage` (`MessageQueue.ts` lines 95-110): the
resolved own-device list (or `none` for the `undefined` of the bare
`return` taken when the freshly built wrapper reports it cannot sync),
paired with the list of `queue(device, message)` calls it performs, in
order.  The method re-wraps its argument (`SyncMessage.from(message)`),
checks `canSync()` on that wrapper, and on success queues its *argument*
to every own device. -/
def sendSyncMessage (env : Env) (base : Nat) (message : OutMessage) :
    Option (List PubKey) × List (PubKey × OutMessage) :=
  if canSyncOf (syncMessageFrom message) then
    let ourDevices := getOurDevices env base
    (some ourDevices, ourDevices.map (fun d => (d, message)))
  else
    (none, [])

/-- The two staging branches produced by one `sendMessageToDevices` call:
the `queue` calls made by the sync branch and by the primary branch, in
order. -/
structure SendSplit where
  syncCalls : List (PubKey × OutMessage)
  primaryCalls : List (PubKey × OutMessage)
deriving DecidableEq

/-- Model of `sendMessageToDevices` (`MessageQueue.ts` lines 51-69).  If
`message.canSync(message)` holds it builds the sync wrapper, runs
`sendSyncMessage` (which resolves own devices with fresh `PubKey`
allocations starting at `base`), replaces the recipient list by
`_.xor(currentDevices, ourDevices)`, and finally queues the original
message to every remaining device. -/
def sendMessageToDevices (env : Env) (base : Nat) (devices : List PubKey)
    (message : OutMessage) : SendSplit :=
  if canSyncOf message then
    let syncMessage := syncMessageFrom message
    let r := sendSyncMessage env base syncMessage
    let currentDevices := lodashXorOpt devices r.1
    ⟨r.2, currentDevices.map (fun d => (d, message))⟩
  else
    ⟨[], devices.map (fun d => (d, message))⟩

/-- The device list a `SendSplit` branch targets. -/
def targets (calls : List (PubKey × OutMessage)) : List PubKey :=
  calls.map Prod.fst

/-- The claim's own notion of recipient-set adjustment, written from the
spec's words (for comparison with what the code computes): the symmetric
difference of the recipient keys and the own-device keys under value
equality of the key material. -/
def specSymmetricDifference (r o : List String) : List String :=
  r.filter (fun x => decide (x ∉ o)) ++ o.filter (fun x => decide (x ∉ r))

end MessageQueueModel

namespace MessageQueueModel

theorem canSyncOf_syncMessageFrom (m : OutMessage) :
    canSyncOf (syncMessageFrom m) = m.wrapperCanSync := rfl

theorem mem_jsUniqAux (x : PubKey) (l : List PubKey) :
    ∀ seen, x ∈ jsUniqAux seen l ↔ (x ∈ l ∧ x ∉ seen) := by
  induction l with
  | nil => intro seen; simp [jsUniqAux]
  | cons y ys ih =>
    intro seen
    simp only [jsUniqAux]
    by_cases h : y ∈ seen
    · rw [if_pos h, ih seen, List.mem_cons]
      by_cases hxy : x = y
      · subst hxy; tauto
      · tauto
    · rw [if_neg h, List.mem_cons, ih (y :: seen), List.mem_cons, List.mem_cons]
      by_cases hxy : x = y
      · subst hxy; tauto
      · tauto

theorem jsUniqAux_eq_self (l : List PubKey) :
    ∀ seen, l.Nodup → (∀ x ∈ l, x ∉ seen) → jsUniqAux seen l = l := by
  induction l with
  | nil => intro seen _ _; rfl
  | cons y ys ih =>
    intro seen hnd hdis
    have hy : y ∉ seen := hdis y (List.mem_cons_self y ys)
    simp only [jsUniqAux, if_neg hy]
    congr 1
    apply ih
    · exact (List.nodup_cons.mp hnd).2
    · intro x hx hc
      rcases List.mem_cons.mp hc with hxy | hc
      · exact (List.nodup_cons.mp hnd).1 (hxy ▸ hx)
      · exact hdis x (List.mem_cons_of_mem _ hx) hc

theorem allocDevices_objId_bound (ks : List String) :
    ∀ base p, p ∈ allocDevices base ks →
      base ≤ p.objId ∧ p.objId < base + ks.length := by
  induction ks with
  | nil => intro base p hp; simp [allocDevices] at hp
  | cons k ks ih =>
    intro base p hp
    simp only [allocDevices, List.mem_cons] at hp
    rcases hp with rfl | hp
    · simp only [List.length_cons]
      omega
    · have := ih (base + 1) p hp
      simp only [List.length_cons]
      omega

theorem allocDevices_nodup (ks : List String) :
    ∀ base, (allocDevices base ks).Nodup := by
  induction ks with
  | nil => intro base; simp [allocDevices]
  | cons k ks ih =>
    intro base
    simp only [allocDevices]
    refine List.nodup_cons.mpr ⟨?_, ih (base + 1)⟩
    intro hmem
    have h := allocDevices_objId_bound ks (base + 1) _ hmem
    simp only at h
    omega

theorem filter_notMem_eq_self (a b : List PubKey) (h : ∀ x ∈ a, x ∉ b) :
    a.filter (fun x => decide (x ∉ b)) = a := by
  apply List.filter_eq_self.mpr
  intro x hx
  simpa using h x hx

theorem lodashXor_eq_append (a b : List PubKey) (hnd : a.Nodup) (hbnd : b.Nodup)
    (hdis : ∀ x ∈ a, x ∉ b) : lodashXor a b = a ++ b := by
  unfold lodashXor
  rw [filter_notMem_eq_self a b hdis,
    filter_notMem_eq_self b a (fun x hx hc => hdis x hc hx)]
  apply jsUniqAux_eq_self
  · exact List.Nodup.append hnd hbnd (fun x hx hy => hdis x hx hy)
  · simp

theorem targets_map_pair (l : List PubKey) (m : OutMessage) :
    targets (l.map (fun d => (d, m))) = l := by
  induction l with
  | nil => rfl
  | cons x xs ih => simpa [targets] using ih

/-- C1 (amended): when the base message reports syncable and its sync
wrapper does not veto, `sendMessageToDevices` queues the sync branch to
exactly the freshly resolved own-device objects and the primary branch to
exactly the lodash xor of the recipient list and the own-device list under
object identity; since the own devices are fresh allocations, they are
never removed from the recipient list — with duplicate-free recipients the
primary branch is the recipient list with every own device appended, so
the two branches need not be disjoint and no recipient sharing key
material with an own device is excluded. -/
theorem sendMessageToDevices_sync_split (env : Env) (base : Nat)
    (devices : List PubKey) (message : OutMessage)
    (hc : canSyncOf message = true) (hw : message.wrapperCanSync = true) :
    (sendMessageToDevices env base devices message).syncCalls
      = (getOurDevices env base).map (fun d => (d, syncMessageFrom message)) ∧
    targets (sendMessageToDevices env base devices message).primaryCalls
      = lodashXor devices (getOurDevices env base) ∧
    (devices.Nodup → (∀ d ∈ devices, d.objId < base) →
      targets (sendMessageToDevices env base devices message).primaryCalls
        = devices ++ getOurDevices env base) := by
  have hcw : canSyncOf (syncMessageFrom (syncMessageFrom message)) = true := hw
  refine ⟨?_, ?_, ?_⟩
  · simp only [sendMessageToDevices, sendSyncMessage, hc, hcw, if_true,
      lodashXorOpt]
  · simp only [sendMessageToDevices, sendSyncMessage, hc, hcw, if_true,
      lodashXorOpt]
    exact targets_map_pair _ _
  · intro hnd hfresh
    simp only [sendMessageToDevices, sendSyncMessage, hc, hcw, if_true,
      lodashXorOpt]
    rw [targets_map_pair]
    apply lodashXor_eq_append _ _ hnd (allocDevices_nodup _ _)
    intro x hx hmem
    have hb := allocDevices_objId_bound _ base x hmem
    have := hfresh x hx
    omega

/-- C1 counterexample: the claim as stated is false on the code.  Part A:
with recipient set ∅ and own device key "aa", the single own device is
queued on BOTH branches, so the two staged sets are not disjoint.  Part B:
a recipient object whose key equals an own device's key is not removed by
the xor (lodash compares object identity, not key material): the primary
branch keeps both objects with key "aa" although the claimed symmetric
difference under value equality is empty. -/
theorem sendMessageToDevices_claim_counterexample :
    (PubKey.mk 0 "aa" ∈ targets (sendMessageToDevices
        ⟨"us", fun _ => ["aa"], fun _ => true, fun _ => false⟩ 0 []
        ⟨"m1", MsgKind.content, true, true⟩).primaryCalls ∧
      PubKey.mk 0 "aa" ∈ targets (sendMessageToDevices
        ⟨"us", fun _ => ["aa"], fun _ => true, fun _ => false⟩ 0 []
        ⟨"m1", MsgKind.content, true, true⟩).syncCalls) ∧
    ((targets (sendMessageToDevices
        ⟨"us", fun _ => ["aa"], fun _ => true, fun _ => false⟩ 10
        [⟨5, "aa"⟩] ⟨"m1", MsgKind.content, true, true⟩).primaryCalls).map
          PubKey.key = ["aa", "aa"] ∧
      specSymmetricDifference ["aa"] ["aa"] = []) := by
  decide

/-- C1 witness: the amended theorem applied at a concrete input (one
recipient with key "cc", one own device with key "bb"). -/
theorem sendMessageToDevices_sync_split_witness :
    canSyncOf ⟨"id1", MsgKind.content, true, true⟩ = true ∧
    (OutMessage.mk "id1" MsgKind.content true true).wrapperCanSync = true ∧
    ((sendMessageToDevices ⟨"u", fun _ => ["bb"], fun _ => true, fun _ => false⟩
        1 [⟨0, "cc"⟩] ⟨"id1", MsgKind.content, true, true⟩).syncCalls
      = (getOurDevices ⟨"u", fun _ => ["bb"], fun _ => true, fun _ => false⟩ 1).map
          (fun d => (d, syncMessageFrom ⟨"id1", MsgKind.content, true, true⟩)) ∧
    targets (sendMessageToDevices ⟨"u", fun _ => ["bb"], fun _ => true, fun _ => false⟩
        1 [⟨0, "cc"⟩] ⟨"id1", MsgKind.content, true, true⟩).primaryCalls
      = lodashXor [⟨0, "cc"⟩]
          (getOurDevices ⟨"u", fun _ => ["bb"], fun _ => true, fun _ => false⟩ 1) ∧
    (([⟨0, "cc"⟩] : List PubKey).Nodup →
      (∀ d ∈ ([⟨0, "cc"⟩] : List PubKey), d.objId < 1) →
      targets (sendMessageToDevices ⟨"u", fun _ => ["bb"], fun _ => true, fun _ => false⟩
          1 [⟨0, "cc"⟩] ⟨"id1", MsgKind.content, true, true⟩).primaryCalls
        = [⟨0, "cc"⟩] ++ getOurDevices ⟨"u", fun _ => ["bb"], fun _ => true, fun _ => false⟩ 1)) :=
  ⟨rfl, rfl, sendMessageToDevices_sync_split _ 1 [⟨0, "cc"⟩] _ rfl rfl⟩

end MessageQueueModel

namespace MessageQueueModel

/-- C5: when the base message claims syncability but the wrapper built in
`sendSyncMessage` reports it cannot sync, the sync branch performs no
`queue` call at all (nothing goes to the sender's own devices) and the
primary branch targets the original recipient set unchanged:
`sendSyncMessage` resolves to `undefined`, lodash xor ignores it and
returns the deduplicated recipient list, whose members are exactly the
original recipients (and which is literally the original list whenever it
is duplicate-free). -/
theorem sendMessageToDevices_wrapper_veto (env : Env) (base : Nat)
    (devices : List PubKey) (message : OutMessage)
    (hc : canSyncOf message = true) (hw : message.wrapperCanSync = false) :
    (sendMessageToDevices env base devices message).syncCalls = [] ∧
    (∀ d, d ∈ targets (sendMessageToDevices env base devices message).primaryCalls
      ↔ d ∈ devices) ∧
    (devices.Nodup →
      (sendMessageToDevices env base devices message).primaryCalls
        = devices.map (fun d => (d, message))) := by
  have hcw : canSyncOf (syncMessageFrom (syncMessageFrom message)) = false := hw
  refine ⟨?_, ?_, ?_⟩
  · simp [sendMessageToDevices, sendSyncMessage, hc, hcw, lodashXorOpt]
  · intro d
    simp only [sendMessageToDevices, sendSyncMessage, hc, hcw, if_true,
      Bool.false_eq_true, if_false, lodashXorOpt]
    rw [targets_map_pair]
    rw [jsUniq, mem_jsUniqAux]
    simp
  · intro hnd
    simp only [sendMessageToDevices, sendSyncMessage, hc, hcw, if_true,
      Bool.false_eq_true, if_false, lodashXorOpt]
    rw [jsUniq, jsUniqAux_eq_self devices [] hnd (by simp)]

/-- C5 witness: the theorem applied at a concrete input (two distinct
recipient objects, base flag set, wrapper veto active). -/
theorem sendMessageToDevices_wrapper_veto_witness :
    canSyncOf ⟨"id2", MsgKind.content, true, false⟩ = true ∧
    (OutMessage.mk "id2" MsgKind.content true false).wrapperCanSync = false ∧
    ((sendMessageToDevices ⟨"u", fun _ => ["bb"], fun _ => true, fun _ => false⟩
        2 [⟨0, "cc"⟩, ⟨1, "dd"⟩] ⟨"id2", MsgKind.content, true, false⟩).syncCalls = [] ∧
    (∀ d, d ∈ targets (sendMessageToDevices
        ⟨"u", fun _ => ["bb"], fun _ => true, fun _ => false⟩
        2 [⟨0, "cc"⟩, ⟨1, "dd"⟩] ⟨"id2", MsgKind.content, true, false⟩).primaryCalls
      ↔ d ∈ ([⟨0, "cc"⟩, ⟨1, "dd"⟩] : List PubKey)) ∧
    (([⟨0, "cc"⟩, ⟨1, "dd"⟩] : List PubKey).Nodup →
      (sendMessageToDevices ⟨"u", fun _ => ["bb"], fun _ => true, fun _ => false⟩
          2 [⟨0, "cc"⟩, ⟨1, "dd"⟩] ⟨"id2", MsgKind.content, true, false⟩).primaryCalls
        = ([⟨0, "cc"⟩, ⟨1, "dd"⟩] : List PubKey).map
            (fun d => (d, ⟨"id2", MsgKind.content, true, false⟩)))) :=
  ⟨rfl, rfl, sendMessageToDevices_wrapper_veto _ 2 [⟨0, "cc"⟩, ⟨1, "dd"⟩] _ rfl rfl⟩

end MessageQueueModel

namespace MessageQueueModel

/-- Lookup in the `jobQueues` JavaScript `Map<PubKey, JobQueue>`
(`MessageQueue.ts` line 31).  A `Map` compares object keys with
`SameValueZero`, i.e. object identity: full `PubKey` equality in this
embedding. -/
def lookupQ : List (PubKey × List String) → PubKey → Option (List String)
  | [], _ => none
  | e :: es, d => if e.1 = d then some e.2 else lookupQ es d

/-- `Map.prototype.set`: replaces the entry for an identical key, appends
a new entry otherwise. -/
def setQ : List (PubKey × List String) → PubKey → List String →
    List (PubKey × List String)
  | [], d, q => [(d, q)]
  | e :: es, d, q => if e.1 = d then (d, q) :: es else e :: setQ es d q

/-- State of one `MessageQueue` instance: the pending message cache
(durable staging, one entry per staged `(device, message)`, in staging
order) and the per-device job-queue map.  A job queue is modelled from the
spec as the FIFO of message identifiers currently outstanding on that
queue (`JobQueue` itself lives outside the excerpted sources). -/
structure DispatchState where
  pending : List (PubKey × OutMessage)
  jobQueues : List (PubKey × List String)
deriving DecidableEq

/-- Effects observable from one `processPending` pass: the session
requests issued (`SessionProtocol.sendSessionRequestIfNeeded`) and the
delivery jobs submitted (device paired with message identifier). -/
structure PassEffects where
  sessionRequests : List PubKey
  submissions : List (PubKey × String)
deriving DecidableEq

/-- Model of `getJobQueue` (`MessageQueue.ts` lines 158-166): returns the
queue cached for this device object, creating and caching an empty one on
first reference.  Returns the queue's outstanding identifiers and the
possibly extended map. -/
def getJobQueue (qs : List (PubKey × List String)) (d : PubKey) :
    List String × List (PubKey × List String) :=
  match lookupQ qs d with
  | some q => (q, qs)
  | none => ([], setQ qs d [])

/-- The drain loop of `processPending` (`MessageQueue.ts` lines 126-139):
for each staged message in order, if its identifier is already on the job
queue nothing happens; otherwise a delivery job is submitted and the
identifier is registered on the queue (the registration is the spec's
`submitIfAbsent` bookkeeping; `JobQueue` is outside the excerpt).  Returns
the final outstanding list and the submitted identifiers in order. -/
def drainLoop : List OutMessage → List String → List String × List String
  | [], q => (q, [])
  | m :: ms, q =>
    if m.identifier ∈ q then drainLoop ms q
    else
      let r := drainLoop ms (q ++ [m.identifier])
      (r.1, m.identifier :: r.2)

/-- `PendingMessageCache.getForDevice` modelled from the spec (the cache
class is outside the excerpt): all messages staged for this device key, in
staging order, without removing them.  The cache stores raw messages keyed
by the device's key string, hence value equality here. -/
def getForDevice (pending : List (PubKey × OutMessage)) (d : PubKey) :
    List OutMessage :=
  (pending.filter (fun e => decide (e.1.key = d.key))).map Prod.snd

/-- Model of `processPending` (`MessageQueue.ts` lines 112-140).  Reads
the staged messages, checks the conversation kind and the session state;
with no session and no medium group it issues one session request and
returns without touching anything; otherwise it fetches (or lazily
creates) the device's job queue and runs the drain loop. -/
def processPending (env : Env) (st : DispatchState) (d : PubKey) :
    DispatchState × PassEffects :=
  let messages := getForDevice st.pending d
  if ¬ env.isMediumGroup d.key ∧ ¬ env.hasSession d.key then
    (st, ⟨[d], []⟩)
  else
    let r := getJobQueue st.jobQueues d
    let dr := drainLoop messages r.1
    ({ st with jobQueues := setQ r.2 d dr.1 },
      ⟨[], dr.2.map (fun i => (d, i))⟩)

/-- `PendingMessageCache.add` modelled from the spec: durable, idempotent
staging keyed by (device key, message identifier). -/
def stagePending (pending : List (PubKey × OutMessage)) (d : PubKey)
    (m : OutMessage) : List (PubKey × OutMessage) :=
  if pending.any (fun e => e.1.key = d.key ∧ e.2.identifier = m.identifier) then
    pending
  else
    pending ++ [(d, m)]

/-- Model of `queue` (`MessageQueue.ts` lines 149-156): a
`SessionResetMessage` returns immediately, before any staging; any other
message is staged in the pending cache and the device is drained. -/
def queueMessage (env : Env) (st : DispatchState) (d : PubKey)
    (m : OutMessage) : DispatchState × PassEffects :=
  if m.kind = MsgKind.sessionReset then
    (st, ⟨[], []⟩)
  else
    processPending env { st with pending := stagePending st.pending d m } d

/-- `PendingMessageCache.remove`, modelled from the spec's
`acknowledge(device, message)`: deletes the staged entry for this device
key and message identifier (a no-op when no such entry exists). -/
def removePending (pending : List (PubKey × OutMessage)) (d : PubKey)
    (m : OutMessage) : List (PubKey × OutMessage) :=
  pending.filter (fun e => decide (¬ (e.1.key = d.key ∧ e.2.identifier = m.identifier)))

/-- Model of the settlement continuation attached to every submitted
delivery job (`MessageQueue.ts` lines 128-136):
`promise.then(() => void remove(message)).catch(() => {})`.  The job's
outcome is an `Except`; the continuation maps it to the resulting cache
state.  The result is itself an `Except` modelling the promise the
submitter observes: `.error` would mean a rejection escaping to the
submitter. -/
def settleDelivery (outcome : Except Unit Unit) (st : DispatchState)
    (d : PubKey) (m : OutMessage) : Except Unit DispatchState :=
  match outcome with
  | Except.ok _ => Except.ok { st with pending := removePending st.pending d m }
  | Except.error _ => Except.ok st

end MessageQueueModel

namespace MessageQueueModel

theorem lookupQ_setQ_self (qs : List (PubKey × List String)) (d : PubKey)
    (q : List String) : lookupQ (setQ qs d q) d = some q := by
  induction qs with
  | nil => simp [setQ, lookupQ]
  | cons e es ih =>
    by_cases h : e.1 = d
    · simp [setQ, lookupQ, h]
    · simp only [setQ, if_neg h, lookupQ]
      exact ih

theorem drainLoop_queue_eq (ms : List OutMessage) :
    ∀ q, (drainLoop ms q).1 = q ++ (drainLoop ms q).2 := by
  induction ms with
  | nil => intro q; simp [drainLoop]
  | cons m ms ih =>
    intro q
    by_cases h : m.identifier ∈ q
    · simp only [drainLoop, if_pos h]
      exact ih q
    · simp only [drainLoop, if_neg h]
      rw [ih (q ++ [m.identifier])]
      simp

theorem drainLoop_not_submitted (ms : List OutMessage) :
    ∀ q i, i ∈ q → i ∉ (drainLoop ms q).2 := by
  induction ms with
  | nil => intro q i _ hc; simp [drainLoop] at hc
  | cons m ms ih =>
    intro q i hi hc
    by_cases h : m.identifier ∈ q
    · rw [drainLoop, if_pos h] at hc
      exact ih q i hi hc
    · rw [drainLoop, if_neg h] at hc
      rcases List.mem_cons.mp hc with rfl | hc
      · exact h hi
      · exact ih (q ++ [m.identifier]) i (List.mem_append_left _ hi) hc

theorem drainLoop_submissions_nodup (ms : List OutMessage) :
    ∀ q, (drainLoop ms q).2.Nodup := by
  induction ms with
  | nil => intro q; simp [drainLoop]
  | cons m ms ih =>
    intro q
    by_cases h : m.identifier ∈ q
    · rw [drainLoop, if_pos h]; exact ih q
    · rw [drainLoop, if_neg h]
      refine List.nodup_cons.mpr ⟨?_, ih _⟩
      exact drainLoop_not_submitted ms (q ++ [m.identifier]) m.identifier
        (List.mem_append_right _ (List.mem_singleton_self _))

/-- C2: one `processPending` pass never submits a delivery job for an
identifier already outstanding on the device's job queue, the submitted
identifiers of a single pass are pairwise distinct, and the queue's
outstanding list afterwards is the previous outstanding list followed by
exactly the newly submitted identifiers — so a given (device object,
identifier) pair has at most one outstanding job, and resubmitting a
staged message while its first job is outstanding is a no-op. -/
theorem processPending_dedup (env : Env) (st : DispatchState) (d : PubKey) :
    (∀ i, i ∈ (lookupQ st.jobQueues d).getD [] →
      (d, i) ∉ (processPending env st d).2.submissions) ∧
    (processPending env st d).2.submissions.Nodup ∧
    (lookupQ (processPending env st d).1.jobQueues d).getD []
      = (lookupQ st.jobQueues d).getD []
        ++ (processPending env st d).2.submissions.map Prod.snd := by
  unfold processPending
  by_cases hgate : ¬ env.isMediumGroup d.key ∧ ¬ env.hasSession d.key
  · rw [if_pos hgate]
    simp
  · rw [if_neg hgate]
    simp only []
    have hq : (getJobQueue st.jobQueues d).1 = (lookupQ st.jobQueues d).getD [] := by
      unfold getJobQueue
      cases h : lookupQ st.jobQueues d <;> simp [h]
    refine ⟨?_, ?_, ?_⟩
    · intro i hi hc
      rw [List.mem_map] at hc
      rcases hc with ⟨j, hj, hji⟩
      have : j = i := congrArg Prod.snd hji
      subst this
      exact drainLoop_not_submitted _ _ _ (hq ▸ hi) hj
    · refine List.Nodup.map ?_ (drainLoop_submissions_nodup _ _)
      intro a b hab
      exact congrArg Prod.snd hab
    · rw [lookupQ_setQ_self]
      simp only [Option.getD_some]
      rw [drainLoop_queue_eq, hq, List.map_map]
      simp

/-- C2 witness: the theorem applied at a concrete state in which
identifier "m1" is already outstanding for the device, with "m1" still
staged: the pass submits nothing new for "m1". -/
theorem processPending_dedup_witness :
    (∀ i, i ∈ (lookupQ (DispatchState.mk [(⟨0, "k"⟩, ⟨"m1", MsgKind.content, false, false⟩)]
        [(⟨0, "k"⟩, ["m1"])]).jobQueues ⟨0, "k"⟩).getD [] →
      (PubKey.mk 0 "k", i) ∉ (processPending ⟨"u", fun _ => [], fun _ => true, fun _ => false⟩
        ⟨[(⟨0, "k"⟩, ⟨"m1", MsgKind.content, false, false⟩)], [(⟨0, "k"⟩, ["m1"])]⟩
        ⟨0, "k"⟩).2.submissions) ∧
    (processPending ⟨"u", fun _ => [], fun _ => true, fun _ => false⟩
        ⟨[(⟨0, "k"⟩, ⟨"m1", MsgKind.content, false, false⟩)], [(⟨0, "k"⟩, ["m1"])]⟩
        ⟨0, "k"⟩).2.submissions.Nodup ∧
    (lookupQ (processPending ⟨"u", fun _ => [], fun _ => true, fun _ => false⟩
        ⟨[(⟨0, "k"⟩, ⟨"m1", MsgKind.content, false, false⟩)], [(⟨0, "k"⟩, ["m1"])]⟩
        ⟨0, "k"⟩).1.jobQueues ⟨0, "k"⟩).getD []
      = (lookupQ (DispatchState.mk [(⟨0, "k"⟩, ⟨"m1", MsgKind.content, false, false⟩)]
          [(⟨0, "k"⟩, ["m1"])]).jobQueues ⟨0, "k"⟩).getD []
        ++ (processPending ⟨"u", fun _ => [], fun _ => true, fun _ => false⟩
            ⟨[(⟨0, "k"⟩, ⟨"m1", MsgKind.content, false, false⟩)], [(⟨0, "k"⟩, ["m1"])]⟩
            ⟨0, "k"⟩).2.submissions.map Prod.snd :=
  processPending_dedup ⟨"u", fun _ => [], fun _ => true, fun _ => false⟩
    ⟨[(⟨0, "k"⟩, ⟨"m1", MsgKind.content, false, false⟩)], [(⟨0, "k"⟩, ["m1"])]⟩ ⟨0, "k"⟩

/-- C3: for a device that is not a medium group and has no session,
`processPending` queues nothing, issues exactly one session request, and
leaves the whole state — in particular every staged message for the
device — unchanged. -/
theorem processPending_session_gate (env : Env) (st : DispatchState)
    (d : PubKey) (hm : env.isMediumGroup d.key = false)
    (hs : env.hasSession d.key = false) :
    processPending env st d = (st, ⟨[d], []⟩) := by
  simp [processPending, hm, hs]

/-- C3 witness: the theorem applied at a concrete gated device with one
staged message. -/
theorem processPending_session_gate_witness :
    (Env.mk "u" (fun _ => []) (fun _ => false) (fun _ => false)).isMediumGroup "k" = false ∧
    (Env.mk "u" (fun _ => []) (fun _ => false) (fun _ => false)).hasSession "k" = false ∧
    processPending ⟨"u", fun _ => [], fun _ => false, fun _ => false⟩
        ⟨[(⟨0, "k"⟩, ⟨"m1", MsgKind.content, false, false⟩)], []⟩ ⟨0, "k"⟩
      = (⟨[(⟨0, "k"⟩, ⟨"m1", MsgKind.content, false, false⟩)], []⟩, ⟨[⟨0, "k"⟩], []⟩) :=
  ⟨rfl, rfl, processPending_session_gate ⟨"u", fun _ => [], fun _ => false, fun _ => false⟩
    ⟨[(⟨0, "k"⟩, ⟨"m1", MsgKind.content, false, false⟩)], []⟩ ⟨0, "k"⟩ rfl rfl⟩

/-- C4: the settlement continuation of a submitted delivery job resolves
(never rejects towards the submitter) in both cases; on success the staged
entry for that (device key, identifier) is gone from the pending cache, on
failure the cache is exactly as before, leaving the entry staged. -/
theorem settleDelivery_outcomes (st : DispatchState) (d : PubKey)
    (m : OutMessage) :
    (settleDelivery (Except.ok ()) st d m
        = Except.ok { st with pending := removePending st.pending d m } ∧
      ∀ e ∈ removePending st.pending d m,
        ¬ (e.1.key = d.key ∧ e.2.identifier = m.identifier)) ∧
    settleDelivery (Except.error ()) st d m = Except.ok st := by
  refine ⟨⟨rfl, ?_⟩, rfl⟩
  intro e he
  have h := List.of_mem_filter he
  simp at h
  tauto

/-- C4 witness: the theorem applied at a concrete state with one staged
message. -/
theorem settleDelivery_outcomes_witness :
    (settleDelivery (Except.ok ())
        ⟨[(⟨0, "k"⟩, ⟨"m1", MsgKind.content, false, false⟩)], []⟩ ⟨0, "k"⟩
        ⟨"m1", MsgKind.content, false, false⟩
        = Except.ok ⟨removePending
              [(⟨0, "k"⟩, ⟨"m1", MsgKind.content, false, false⟩)] ⟨0, "k"⟩
              ⟨"m1", MsgKind.content, false, false⟩, []⟩ ∧
      ∀ e ∈ removePending [(⟨0, "k"⟩, ⟨"m1", MsgKind.content, false, false⟩)] ⟨0, "k"⟩
          ⟨"m1", MsgKind.content, false, false⟩,
        ¬ (e.1.key = (PubKey.mk 0 "k").key ∧
            e.2.identifier = (OutMessage.mk "m1" MsgKind.content false false).identifier)) ∧
    settleDelivery (Except.error ())
        ⟨[(⟨0, "k"⟩, ⟨"m1", MsgKind.content, false, false⟩)], []⟩ ⟨0, "k"⟩
        ⟨"m1", MsgKind.content, false, false⟩
      = Except.ok ⟨[(⟨0, "k"⟩, ⟨"m1", MsgKind.content, false, false⟩)], []⟩ :=
  settleDelivery_outcomes ⟨[(⟨0, "k"⟩, ⟨"m1", MsgKind.content, false, false⟩)], []⟩
    ⟨0, "k"⟩ ⟨"m1", MsgKind.content, false, false⟩

end MessageQueueModel

namespace MessageQueueModel

/-- C6: queuing a `SessionResetMessage` returns before any staging: the
pending cache and the job queues are untouched and neither a session
request nor a delivery job is produced. -/
theorem queueMessage_session_reset (env : Env) (st : DispatchState)
    (d : PubKey) (m : OutMessage) (h : m.kind = MsgKind.sessionReset) :
    queueMessage env st d m = (st, ⟨[], []⟩) := by
  simp [queueMessage, h]

/-- C6 witness: the theorem applied to a concrete session-reset message
and a nonempty state. -/
theorem queueMessage_session_reset_witness :
    (OutMessage.mk "r1" MsgKind.sessionReset false false).kind
      = MsgKind.sessionReset ∧
    queueMessage ⟨"u", fun _ => [], fun _ => true, fun _ => false⟩
        ⟨[(⟨0, "k"⟩, ⟨"m1", MsgKind.content, false, false⟩)], [(⟨0, "k"⟩, ["m1"])]⟩
        ⟨0, "k"⟩ ⟨"r1", MsgKind.sessionReset, false, false⟩
      = (⟨[(⟨0, "k"⟩, ⟨"m1", MsgKind.content, false, false⟩)], [(⟨0, "k"⟩, ["m1"])]⟩,
          ⟨[], []⟩) :=
  ⟨rfl, queueMessage_session_reset ⟨"u", fun _ => [], fun _ => true, fun _ => false⟩
    ⟨[(⟨0, "k"⟩, ⟨"m1", MsgKind.content, false, false⟩)], [(⟨0, "k"⟩, ["m1"])]⟩
    ⟨0, "k"⟩ ⟨"r1", MsgKind.sessionReset, false, false⟩ rfl⟩

/-- C7 (code bug): the `jobQueues` map keys by object identity, not by
key material.  Two `PubKey` objects wrapping the same key get distinct job
queues, so deduplication state is NOT shared between them: with message
"m1" staged for key "k" and already outstanding on the queue obtained for
the first object, a `processPending` through a second object with the
same key creates a fresh empty queue and submits a second delivery job
for the very same (key, identifier) pair, and the map ends with two
separate queue entries for key "k". -/
theorem getJobQueue_object_identity :
    (PubKey.mk 0 "k").key = (PubKey.mk 1 "k").key ∧
    PubKey.mk 0 "k" ≠ PubKey.mk 1 "k" ∧
    (processPending ⟨"u", fun _ => [], fun _ => true, fun _ => false⟩
        ⟨[(⟨0, "k"⟩, ⟨"m1", MsgKind.content, false, false⟩)], []⟩
        ⟨0, "k"⟩).2.submissions = [(⟨0, "k"⟩, "m1")] ∧
    (processPending ⟨"u", fun _ => [], fun _ => true, fun _ => false⟩
        (processPending ⟨"u", fun _ => [], fun _ => true, fun _ => false⟩
          ⟨[(⟨0, "k"⟩, ⟨"m1", MsgKind.content, false, false⟩)], []⟩
          ⟨0, "k"⟩).1 ⟨1, "k"⟩).2.submissions = [(⟨1, "k"⟩, "m1")] ∧
    (processPending ⟨"u", fun _ => [], fun _ => true, fun _ => false⟩
        (processPending ⟨"u", fun _ => [], fun _ => true, fun _ => false⟩
          ⟨[(⟨0, "k"⟩, ⟨"m1", MsgKind.content, false, false⟩)], []⟩
          ⟨0, "k"⟩).1 ⟨1, "k"⟩).1.jobQueues
      = [(⟨0, "k"⟩, ["m1"]), (⟨1, "k"⟩, ["m1"])] := by
  decide

/-- Effects observable from one `sendToGroup` call: the ordinary pass
effects plus the messages handed directly to the transport collaborator.
The model records a direct send wherever the source calls the transport
outside a queued job; the open-group branch of the source contains only a
comment and performs no such call. -/
structure GroupSendEffects where
  pass : PassEffects
  directSends : List OutMessage
deriving DecidableEq

/-- Model of `sendToGroup` (`MessageQueue.ts` lines 71-93).  Messages
that are neither open-group nor closed-group return immediately.  For a
closed-group message the source binds the literal constant
`const recipients = 5` — never the directory collaborator — and passes it
to `sendMessageToDevices`, whose first statement `[...devices]` spreads a
non-iterable number and throws a `TypeError`, so the call rejects having
staged nothing.  For an open-group message the branch body is empty (only
the comment "No queue needed for Open Groups; send directly"), so the
call resolves with no staging, no queue activity and no transport
handoff.  `groupMembers` models the directory collaborator
`resolveGroupMembers` and `groupId` the message's `groupId` field (both
outside the excerpt); the source consults neither. -/
def sendToGroup (groupMembers : String → List PubKey) (groupId : String)
    (env : Env) (st : DispatchState) (m : OutMessage) :
    Except String (DispatchState × GroupSendEffects) :=
  if m.kind ≠ MsgKind.openGroup ∧ m.kind ≠ MsgKind.closedGroup then
    Except.ok (st, ⟨⟨[], []⟩, []⟩)
  else if m.kind = MsgKind.closedGroup then
    Except.error "TypeError: recipients is not iterable"
  else
    Except.ok (st, ⟨⟨[], []⟩, []⟩)

/-- C8 (code bug): for a closed-group message `sendToGroup` never
resolves the group's member devices — the result is identical for every
directory collaborator and every group id — and instead of fanning out to
the member set it rejects with the `TypeError` raised by spreading the
placeholder constant `5`, staging nothing. -/
theorem sendToGroup_closed_group_stub (gm gm' : String → List PubKey)
    (gid gid' : String) (env : Env) (st : DispatchState) (m : OutMessage)
    (h : m.kind = MsgKind.closedGroup) :
    sendToGroup gm gid env st m
      = Except.error "TypeError: recipients is not iterable" ∧
    sendToGroup gm gid env st m = sendToGroup gm' gid' env st m := by
  simp [sendToGroup, h]

/-- C8 witness: the theorem applied to a concrete closed-group message
and two different directory collaborators. -/
theorem sendToGroup_closed_group_stub_witness :
    (OutMessage.mk "g1" MsgKind.closedGroup false false).kind
      = MsgKind.closedGroup ∧
    (sendToGroup (fun _ => []) "grp"
        ⟨"u", fun _ => [], fun _ => true, fun _ => false⟩ ⟨[], []⟩
        ⟨"g1", MsgKind.closedGroup, false, false⟩
      = Except.error "TypeError: recipients is not iterable" ∧
    sendToGroup (fun _ => []) "grp"
        ⟨"u", fun _ => [], fun _ => true, fun _ => false⟩ ⟨[], []⟩
        ⟨"g1", MsgKind.closedGroup, false, false⟩
      = sendToGroup (fun _ => [⟨7, "member"⟩]) "other"
          ⟨"u", fun _ => [], fun _ => true, fun _ => false⟩ ⟨[], []⟩
          ⟨"g1", MsgKind.closedGroup, false, false⟩) :=
  ⟨rfl, sendToGroup_closed_group_stub (fun _ => []) (fun _ => [⟨7, "member"⟩])
    "grp" "other" ⟨"u", fun _ => [], fun _ => true, fun _ => false⟩ ⟨[], []⟩
    ⟨"g1", MsgKind.closedGroup, false, false⟩ rfl⟩

/-- C9 (code bug): an open-group message does bypass the pending cache
and the dispatch queues (the state is returned unchanged and no job or
session request is produced), but it is NOT handed to the transport
collaborator: the branch body is empty, so the message is silently
dropped — the direct-send list is empty. -/
theorem sendToGroup_open_group_drop (gm : String → List PubKey)
    (gid : String) (env : Env) (st : DispatchState) (m : OutMessage)
    (h : m.kind = MsgKind.openGroup) :
    sendToGroup gm gid env st m = Except.ok (st, ⟨⟨[], []⟩, []⟩) := by
  simp [sendToGroup, h]

/-- C9 witness: the theorem applied to a concrete open-group message and
a nonempty state. -/
theorem sendToGroup_open_group_drop_witness :
    (OutMessage.mk "o1" MsgKind.openGroup false false).kind
      = MsgKind.openGroup ∧
    sendToGroup (fun _ => []) "grp"
        ⟨"u", fun _ => [], fun _ => true, fun _ => false⟩
        ⟨[(⟨0, "k"⟩, ⟨"m1", MsgKind.content, false, false⟩)], []⟩
        ⟨"o1", MsgKind.openGroup, false, false⟩
      = Except.ok (⟨[(⟨0, "k"⟩, ⟨"m1", MsgKind.content, false, false⟩)], []⟩,
          ⟨⟨[], []⟩, []⟩) :=
  ⟨rfl, sendToGroup_open_group_drop (fun _ => []) "grp"
    ⟨"u", fun _ => [], fun _ => true, fun _ => false⟩
    ⟨[(⟨0, "k"⟩, ⟨"m1", MsgKind.content, false, false⟩)], []⟩
    ⟨"o1", MsgKind.openGroup, false, false⟩ rfl⟩

end MessageQueueModel

/-!
## OpenGroupUtils (`src/ts/opengroup/utils/OpenGroupUtils.ts`)

JavaScript strings are modelled as `List Char`; the source's regular
expressions are transcribed into Mathlib's `RegularExpression Char`
(classes become finite alternations over the literal character lists,
`x?` becomes `1 + x`, `x+` becomes `x * x.star`, `x{2,64}` becomes
`x * x * repUpTo x 62`).  `RegExp.prototype.test` and the truthiness of
`String.prototype.match` are unanchored: they succeed exactly when some
substring is in the regex's language, which `testJS` implements.
-/

namespace OpenGroupUtilsModel

/-- `RegularExpression` over JavaScript string characters. -/
abbrev Re := RegularExpression Char

/-- A character class `[...]`: alternation of its member characters. -/
def charClass (cs : List Char) : Re :=
  (cs.map RegularExpression.char).foldr (· + ·) 0

/-- A literal string in a regex: concatenation of its characters. -/
def strRe (s : List Char) : Re :=
  (s.map RegularExpression.char).foldr (· * ·) 1

/-- The regex postfix `?`: zero or one occurrence. -/
def opt (r : Re) : Re := 1 + r

/-- At most `n` further occurrences of `r`: the encoding of the bounded
repetition `{lo,hi}` once its mandatory copies are laid out. -/
def repUpTo (r : Re) : Nat → Re
  | 0 => 1
  | n + 1 => 1 + r * repUpTo r n

/-- The characters `a-z`. -/
def lowerChars : List Char :=
  ['a', 'b', 'c', 'd', 'e', 'f', 'g', 'h', 'i', 'j', 'k', 'l', 'm',
   'n', 'o', 'p', 'q', 'r', 's', 't', 'u', 'v', 'w', 'x', 'y', 'z']

/-- The characters `A-Z`. -/
def upperChars : List Char :=
  ['A', 'B', 'C', 'D', 'E', 'F', 'G', 'H', 'I', 'J', 'K', 'L', 'M',
   'N', 'O', 'P', 'Q', 'R', 'S', 'T', 'U', 'V', 'W', 'X', 'Y', 'Z']

/-- The characters `0-9`. -/
def digitChars : List Char :=
  ['0', '1', '2', '3', '4', '5', '6', '7', '8', '9']

/-- The class `[a-zA-Z0-9]` (the source also writes it `[A-Za-z0-9]`;
same character set). -/
def alnumChars : List Char := lowerChars ++ upperChars ++ digitChars

/-- The class `[a-zA-Z0-9-]`. -/
def alnumDashChars : List Char := alnumChars ++ ['-']

/-- The class `[0-9a-z_]` of `roomIdV2Regex`. -/
def roomIdChars : List Char := digitChars ++ lowerChars ++ ['_']

/-- `protocolRegex = (https?://)?`. -/
def protocolRegex : Re :=
  opt (strRe ("http".data) * opt (RegularExpression.char 's') *
    strRe ("://".data))

/-- One hostname label:
`[a-zA-Z0-9]|[a-zA-Z0-9][a-zA-Z0-9-]*[a-zA-Z0-9]`. -/
def hostLabelRegex : Re :=
  charClass alnumChars +
    charClass alnumChars * (charClass alnumDashChars).star *
      charClass alnumChars

/-- `hostnameRegex = ((label)\.)*(label)` as in the source (the trailing
label is written there with the equivalent class `[A-Za-z0-9]`). -/
def hostnameRegex : Re :=
  (hostLabelRegex * RegularExpression.char '.').star * hostLabelRegex

/-- `portRegex = (:[0-9]+)?`. -/
def portRegex : Re :=
  opt (RegularExpression.char ':' *
    (charClass digitChars * (charClass digitChars).star))

/-- `roomIdV2Regex = [0-9a-z_]{2,64}`. -/
def roomIdV2Regex : Re :=
  charClass roomIdChars * charClass roomIdChars *
    repUpTo (charClass roomIdChars) 62

/-- `openGroupV2ServerUrlRegex`: protocol, hostname, port, concatenated
exactly as the source template literal interpolates their sources. -/
def openGroupV2ServerUrlRegex : Re :=
  protocolRegex * hostnameRegex * portRegex

/-- The constant `openGroupPrefix = 'publicChat:'`. -/
def openGroupPrefixStr : List Char := "publicChat:".data

/-- `openGroupV2ConversationIdRegex`: the literal prefix, a room id, `@`,
then the server-url pattern, concatenated exactly as the source template
literal interpolates the regex sources (regex concatenation is flat, so
the grouping chosen here does not change the language). -/
def openGroupV2ConversationIdRegex : Re :=
  strRe openGroupPrefixStr * roomIdV2Regex * RegularExpression.char '@' *
    openGroupV2ServerUrlRegex

/-- Unanchored JavaScript regex test: `regex.test(s)` (and the truthiness
of `s.match(regex)`) succeed exactly when some substring of `s` is in the
regex's language. -/
def testJS (r : Re) (s : List Char) : Bool :=
  s.tails.any (fun t => t.inits.any (fun m => r.rmatch m))

/-- `String.prototype.indexOf` for a single character: index of the first
occurrence, `-1` if absent. -/
def jsIndexOf : List Char → Char → Int
  | [], _ => -1
  | x :: xs, c =>
    if x = c then 0
    else
      let r := jsIndexOf xs c
      if r < 0 then -1 else r + 1

/-- `String.prototype.slice(start, stop)` with the ECMAScript clamping of
both arguments. -/
def jsSlice2 (l : List Char) (start stop : Int) : List Char :=
  let len : Int := l.length
  let s := (if start < 0 then max (len + start) 0 else min start len).toNat
  let e := (if stop < 0 then max (len + stop) 0 else min stop len).toNat
  (l.take e).drop s

/-- `String.prototype.slice(start)` (to the end of the string). -/
def jsSlice1 (l : List Char) (start : Int) : List Char :=
  let len : Int := l.length
  let s := (if start < 0 then max (len + start) 0 else min start len).toNat
  l.drop s

/-- `OpenGroupRequestCommonType`: the `{serverUrl, roomId}` record. -/
structure OpenGroupRequestCommonType where
  serverUrl : List Char
  roomId : List Char
deriving DecidableEq

/-- Model of `getOpenGroupV2ConversationId` (`OpenGroupUtils.ts` lines
78-86): guards `roomId` and `serverUrl` with unanchored `match` calls
(throwing on failure, modelled as `Except.error`) and returns
`publicChat:` ++ roomId ++ `@` ++ serverUrl. -/
def getOpenGroupV2ConversationId (serverUrl roomId : List Char) :
    Except String (List Char) :=
  if ¬ testJS roomIdV2Regex roomId then
    Except.error "getOpenGroupV2ConversationId: Invalid roomId"
  else if ¬ testJS openGroupV2ServerUrlRegex serverUrl then
    Except.error "getOpenGroupV2ConversationId: Invalid serverUrl"
  else
    Except.ok (openGroupPrefixStr ++ roomId ++ '@' :: serverUrl)

/-- Model of `isOpenGroupV2` (`OpenGroupUtils.ts` lines 112-114): the
unanchored test of the conversation-id regex. -/
def isOpenGroupV2 (conversationId : List Char) : Bool :=
  testJS openGroupV2ConversationIdRegex conversationId

/-- Model of `getOpenGroupV2FromConversationId` (`OpenGroupUtils.ts`
lines 91-104): when the id passes `isOpenGroupV2`, slices the room id
between the prefix and the first `@` and the server url after it;
otherwise throws. -/
def getOpenGroupV2FromConversationId (conversationId : List Char) :
    Except String OpenGroupRequestCommonType :=
  if isOpenGroupV2 conversationId then
    let atIndex := jsIndexOf conversationId '@'
    let roomId := jsSlice2 conversationId (openGroupPrefixStr.length : Int) atIndex
    let serverUrl := jsSlice1 conversationId (atIndex + 1)
    Except.ok ⟨serverUrl, roomId⟩
  else
    Except.error "Not a v2 open group convo id"

end OpenGroupUtilsModel

namespace OpenGroupUtilsModel

theorem charClass_rmatch (cs : List Char) (c : Char) (h : c ∈ cs) :
    (charClass cs).rmatch [c] = true := by
  induction cs with
  | nil => cases h
  | cons a as ih =>
    have hdef : charClass (a :: as) = RegularExpression.char a + charClass as := rfl
    rw [hdef, RegularExpression.add_rmatch_iff]
    rcases List.mem_cons.mp h with rfl | h
    · exact Or.inl ((RegularExpression.char_rmatch_iff _ _).mpr rfl)
    · exact Or.inr (ih h)

theorem strRe_rmatch (l : List Char) : (strRe l).rmatch l = true := by
  induction l with
  | nil => exact (RegularExpression.one_rmatch_iff _).mpr rfl
  | cons a as ih =>
    have hdef : strRe (a :: as) = RegularExpression.char a * strRe as := rfl
    rw [hdef, RegularExpression.mul_rmatch_iff]
    exact ⟨[a], as, rfl, (RegularExpression.char_rmatch_iff _ _).mpr rfl, ih⟩

theorem repUpTo_rmatch (cs : List Char) :
    ∀ (n : Nat) (s : List Char), s.length ≤ n → (∀ c ∈ s, c ∈ cs) →
      (repUpTo (charClass cs) n).rmatch s = true := by
  intro n
  induction n with
  | zero =>
    intro s hlen _
    have hnil : s = [] := List.eq_nil_of_length_eq_zero (Nat.le_zero.mp hlen)
    subst hnil
    exact (RegularExpression.one_rmatch_iff _).mpr rfl
  | succ n ih =>
    intro s hlen hin
    cases s with
    | nil =>
      rw [repUpTo, RegularExpression.add_rmatch_iff]
      exact Or.inl ((RegularExpression.one_rmatch_iff _).mpr rfl)
    | cons a t =>
      rw [repUpTo, RegularExpression.add_rmatch_iff]
      refine Or.inr ?_
      rw [RegularExpression.mul_rmatch_iff]
      refine ⟨[a], t, rfl, charClass_rmatch cs a (hin a (List.mem_cons_self _ _)), ?_⟩
      exact ih t (by simpa using hlen) (fun c hcm => hin c (List.mem_cons_of_mem _ hcm))

theorem roomId_rmatch (s : List Char) (h2 : 2 ≤ s.length)
    (h64 : s.length ≤ 64) (hc : ∀ c ∈ s, c ∈ roomIdChars) :
    roomIdV2Regex.rmatch s = true := by
  obtain ⟨a, s1, rfl⟩ : ∃ a s1, s = a :: s1 := by
    cases s with
    | nil => simp at h2
    | cons a s1 => exact ⟨a, s1, rfl⟩
  obtain ⟨b, t, rfl⟩ : ∃ b t, s1 = b :: t := by
    cases s1 with
    | nil => simp at h2
    | cons b t => exact ⟨b, t, rfl⟩
  unfold roomIdV2Regex
  rw [RegularExpression.mul_rmatch_iff]
  refine ⟨[a, b], t, rfl, ?_, ?_⟩
  · rw [RegularExpression.mul_rmatch_iff]
    exact ⟨[a], [b], rfl, charClass_rmatch _ _ (hc a (by simp)),
      charClass_rmatch _ _ (hc b (by simp))⟩
  · apply repUpTo_rmatch
    · simpa using h64
    · exact fun c hcm => hc c (by simp [hcm])

theorem testJS_of_middle (r : Re) (pre mid post : List Char)
    (h : r.rmatch mid = true) : testJS r (pre ++ mid ++ post) = true := by
  unfold testJS
  rw [List.any_eq_true]
  refine ⟨mid ++ post, ?_, ?_⟩
  · exact (List.mem_tails _ _).mpr ⟨pre, by simp⟩
  · rw [List.any_eq_true]
    exact ⟨mid, (List.mem_inits _ _).mpr ⟨post, rfl⟩, h⟩

theorem testJS_of_full (r : Re) (s : List Char) (h : r.rmatch s = true) :
    testJS r s = true := by
  have hm := testJS_of_middle r [] s [] h
  simpa using hm

theorem jsIndexOf_cons_self (c : Char) (t : List Char) :
    jsIndexOf (c :: t) c = 0 := by
  simp [jsIndexOf]

theorem jsIndexOf_append (l r : List Char) (c : Char) (hl : c ∉ l)
    (hr : 0 ≤ jsIndexOf r c) :
    jsIndexOf (l ++ r) c = l.length + jsIndexOf r c := by
  induction l with
  | nil => simp
  | cons x xs ih =>
    have hx : x ≠ c := fun h => hl (h ▸ List.mem_cons_self x xs)
    have hxs : c ∉ xs := fun h => hl (List.mem_cons_of_mem _ h)
    have ih' := ih hxs
    simp only [List.cons_append, jsIndexOf, if_neg hx]
    simp only [List.append_eq]
    rw [ih']
    have hpos : ¬ ((xs.length : Int) + jsIndexOf r c < 0) := by omega
    rw [if_neg hpos]
    simp only [List.length_cons]
    push_cast
    omega

theorem jsSlice2_eq (l : List Char) (a b : Nat) (hab : a ≤ b)
    (hb : b ≤ l.length) :
    jsSlice2 l (a : Int) (b : Int) = (l.take b).drop a := by
  have ha' : ¬ ((a : Int) < 0) := by omega
  have hb' : ¬ ((b : Int) < 0) := by omega
  have hmina : min (a : Int) (l.length : Int) = (a : Int) :=
    min_eq_left (by exact_mod_cast le_trans hab hb)
  have hminb : min (b : Int) (l.length : Int) = (b : Int) :=
    min_eq_left (by exact_mod_cast hb)
  simp only [jsSlice2, if_neg ha', if_neg hb', hmina, hminb, Int.toNat_natCast]

theorem jsSlice1_eq (l : List Char) (a : Nat) (ha : a ≤ l.length) :
    jsSlice1 l (a : Int) = l.drop a := by
  have ha' : ¬ ((a : Int) < 0) := by omega
  have hmina : min (a : Int) (l.length : Int) = (a : Int) :=
    min_eq_left (by exact_mod_cast ha)
  simp only [jsSlice1, if_neg ha', hmina, Int.toNat_natCast]

/-- C10: for a room id of 2 to 64 characters drawn from `[0-9a-z_]` and a
server url fully matching `openGroupV2ServerUrlRegex` with no `@`
character, `getOpenGroupV2ConversationId` does not throw and produces
`publicChat:` ++ roomId ++ `@` ++ serverUrl, and
`getOpenGroupV2FromConversationId` recovers exactly the original
`{serverUrl, roomId}` pair from it. -/
theorem getOpenGroupV2ConversationId_roundtrip (room srv : List Char)
    (h2 : 2 ≤ room.length) (h64 : room.length ≤ 64)
    (hc : ∀ c ∈ room, c ∈ roomIdChars)
    (hs : openGroupV2ServerUrlRegex.rmatch srv = true)
    (hat : '@' ∉ srv) :
    getOpenGroupV2ConversationId srv room
      = Except.ok (openGroupPrefixStr ++ room ++ '@' :: srv) ∧
    getOpenGroupV2FromConversationId (openGroupPrefixStr ++ room ++ '@' :: srv)
      = Except.ok ⟨srv, room⟩ := by
  have hroomFull := roomId_rmatch room h2 h64 hc
  have hroomTest : testJS roomIdV2Regex room = true :=
    testJS_of_full _ _ hroomFull
  have hsrvTest : testJS openGroupV2ServerUrlRegex srv = true :=
    testJS_of_full _ _ hs
  constructor
  · simp [getOpenGroupV2ConversationId, hroomTest, hsrvTest]
  · have hcid : openGroupV2ConversationIdRegex.rmatch
        (openGroupPrefixStr ++ room ++ '@' :: srv) = true := by
      unfold openGroupV2ConversationIdRegex
      rw [RegularExpression.mul_rmatch_iff]
      refine ⟨openGroupPrefixStr ++ room ++ ['@'], srv, by simp, ?_, hs⟩
      rw [RegularExpression.mul_rmatch_iff]
      refine ⟨openGroupPrefixStr ++ room, ['@'], by simp, ?_,
        (RegularExpression.char_rmatch_iff _ _).mpr rfl⟩
      rw [RegularExpression.mul_rmatch_iff]
      exact ⟨openGroupPrefixStr, room, rfl, strRe_rmatch _, hroomFull⟩
    have hisO : isOpenGroupV2 (openGroupPrefixStr ++ room ++ '@' :: srv) = true := by
      unfold isOpenGroupV2
      have hm := testJS_of_middle openGroupV2ConversationIdRegex []
        (openGroupPrefixStr ++ room ++ '@' :: srv) [] hcid
      simpa using hm
    have hnoAtRoom : '@' ∉ room := by
      intro h
      have hmem := hc '@' h
      revert hmem
      decide
    have hnoAtPfx : '@' ∉ openGroupPrefixStr := by decide
    have hnotin : '@' ∉ openGroupPrefixStr ++ room := by
      intro h
      rcases List.mem_append.mp h with h | h
      · exact hnoAtPfx h
      · exact hnoAtRoom h
    have hassoc : openGroupPrefixStr ++ room ++ '@' :: srv
        = (openGroupPrefixStr ++ room) ++ ('@' :: srv) := by simp
    have hidx : jsIndexOf (openGroupPrefixStr ++ room ++ '@' :: srv) '@'
        = ((openGroupPrefixStr ++ room).length : Int) := by
      rw [hassoc, jsIndexOf_append _ _ _ hnotin (by simp [jsIndexOf_cons_self]),
        jsIndexOf_cons_self]
      simp
    simp only [getOpenGroupV2FromConversationId, hisO, if_true, hidx]
    have hlenle : (openGroupPrefixStr ++ room).length
        ≤ (openGroupPrefixStr ++ room ++ '@' :: srv).length := by
      simp
    have hroomSlice : jsSlice2 (openGroupPrefixStr ++ room ++ '@' :: srv)
        (openGroupPrefixStr.length : Int)
        ((openGroupPrefixStr ++ room).length : Int) = room := by
      rw [jsSlice2_eq _ _ _ (by simp) hlenle, hassoc, List.take_left]
      exact List.drop_left _ _
    have hsrvSlice : jsSlice1 (openGroupPrefixStr ++ room ++ '@' :: srv)
        (((openGroupPrefixStr ++ room).length : Int) + 1) = srv := by
      have hcast : (((openGroupPrefixStr ++ room).length : Int) + 1)
          = (((openGroupPrefixStr ++ room).length + 1 : Nat) : Int) := by push_cast; ring
      rw [hcast, jsSlice1_eq _ _
        (by simp only [List.length_append, List.length_cons]; omega)]
      have hassoc2 : openGroupPrefixStr ++ room ++ '@' :: srv
          = ((openGroupPrefixStr ++ room) ++ ['@']) ++ srv := by simp
      rw [hassoc2]
      exact List.drop_left'
        (by simp only [List.length_append, List.length_cons, List.length_nil])
    rw [hroomSlice, hsrvSlice]

/-- C10 witness: the round-trip theorem applied to room id "ab" and
server url "c". -/
theorem getOpenGroupV2ConversationId_roundtrip_witness :
    2 ≤ (['a', 'b'] : List Char).length ∧
    (['a', 'b'] : List Char).length ≤ 64 ∧
    (∀ c ∈ (['a', 'b'] : List Char), c ∈ roomIdChars) ∧
    openGroupV2ServerUrlRegex.rmatch ['c'] = true ∧
    '@' ∉ (['c'] : List Char) ∧
    (getOpenGroupV2ConversationId ['c'] ['a', 'b']
        = Except.ok (openGroupPrefixStr ++ ['a', 'b'] ++ '@' :: ['c']) ∧
      getOpenGroupV2FromConversationId
          (openGroupPrefixStr ++ ['a', 'b'] ++ '@' :: ['c'])
        = Except.ok ⟨['c'], ['a', 'b']⟩) :=
  ⟨by decide, by decide, by decide, by decide, by decide,
    getOpenGroupV2ConversationId_roundtrip ['a', 'b'] ['c'] (by decide)
      (by decide) (by decide) (by decide) (by decide)⟩

end OpenGroupUtilsModel
